import Mathlib

/-!
Verification of the fetchit change-tracking / resumable-apply engine
(`pkg/engine/apply.go`) against its natural-language specification.

The Go code is shallowly embedded:

* `plumbing.Hash` (an opaque, comparable commit identifier with a
  distinguished zero value) is modelled as `Nat` with `zeroHash = 0`.
* `object.Tree` is modelled as an opaque identifier `Tree := Nat`; the
  go-git tree diff (`currentTree.Diff(desiredTree)`) is an external
  collaborator and appears as the oracle field `Repo.diff`.
* The local clone is a `Repo` record: a tag table (the durable State Tag
  Store, go-git lightweight tags) plus oracles for commit-object lookup,
  subtree resolution and tree diff.  `git.PlainOpen` is assumed to
  succeed (a healthy on-disk clone); with it, the only errors the go-git
  tag API can produce are `ErrTagNotFound` and `ErrTagExists`, which is
  exactly what `GitErr` captures.
* State-mutating operations return `Repo × Option Err`: the new on-disk
  state together with the Go error value (mutations persist even when an
  error is returned, as they do on disk).
* `fc.EngineMethod` (the Method Contract, dispatched per change) lives in
  repository code outside the analysed sources and is, per the spec, an
  external collaborator; it is a parameter `em : EngineM` giving each
  task's outcome from its resolved path and change.
* A compiled `gobwas/glob` matcher is a function `String → Bool`.  The
  code compiles patterns without separators, so the default pattern
  `"**"` matches every string (including the empty string); a `nil`
  pattern therefore compiles to `matchEverything`.
-/

namespace Fetchit

/-- Commit identifier: opaque and comparable, like `plumbing.Hash`. -/
abbrev Hash := Nat

/-- Modelled from the spec: the distinguished zero commit value
(`plumbing.Hash{}`, declared in repository code outside the analysed
sources) denoting "no history" / "empty tree". -/
def zeroHash : Hash := 0

/-- Error values (Go `error`); only presence and wrapping structure
matter to the claims, so a message string suffices. -/
abbrev Err := String

/-- Models `utils.WrapErr(err, msg)`: wraps an error with a context
message. -/
def wrapErr (msg : String) (e : Err) : Err := msg ++ ": " ++ e

/-- The errors the go-git tag API can produce on a healthy (openable)
clone: `git.ErrTagNotFound` and `git.ErrTagExists`. -/
inductive GitErr where
  | tagNotFound
  | tagExists
deriving DecidableEq, Repr

/-- Message text of a git tag error, used for wrapping. -/
def GitErr.msg : GitErr → String
  | .tagNotFound => "tag not found"
  | .tagExists => "tag already exists"

/-- One entry of a tree-to-tree diff (`object.Change`): the name at the
"from" state and the name at the "to" state, either possibly empty. -/
structure Change where
  fromName : String
  toName : String
deriving DecidableEq, Repr

/-- Tree identifier: opaque, like `*object.Tree`. -/
abbrev Tree := Nat

/-- The empty tree `&object.Tree{}` returned for the zero hash. -/
def emptyTree : Tree := 0

/-- The local clone: the tag table (durable State Tag Store) plus the
go-git oracles the engine consults.  `commits h` composes
`repo.CommitObject(h)` and `commit.Tree()` (`none` when either fails);
`subtree t p` is `tree.Tree(p)`; `diff a b` is `a.Diff(b)`. -/
structure Repo where
  tags : String → Option Hash
  commits : Hash → Option Tree
  subtree : Tree → String → Option Tree
  diff : Tree → Tree → List Change

/-- `repo.Tag(name)` for a lightweight tag: the hash it points at, or
`ErrTagNotFound`. -/
def Repo.tagRef (r : Repo) (name : String) : Except GitErr Hash :=
  match r.tags name with
  | none => .error .tagNotFound
  | some h => .ok h

/-- `repo.CreateTag(name, h, nil)`: fails with `ErrTagExists` when a tag
of that name is already present, otherwise records the tag. -/
def Repo.createTag (r : Repo) (name : String) (h : Hash) : Except GitErr Repo :=
  match r.tags name with
  | some _ => .error .tagExists
  | none => .ok { r with tags := fun n => if n = name then some h else r.tags n }

/-- `repo.DeleteTag(name)`: fails with `ErrTagNotFound` when absent,
otherwise removes the tag. -/
def Repo.deleteTag (r : Repo) (name : String) : Except GitErr Repo :=
  match r.tags name with
  | none => .error .tagNotFound
  | some _ => .ok { r with tags := fun n => if n = name then none else r.tags n }

/-- The `current-<method>` tag name. -/
def currentTagName (method : String) : String := "current-" ++ method

/-- The `progress-<method>` tag name. -/
def progressTagName (method : String) : String := "progress-" ++ method

/-- `GetCurrent`: read the `current-<method>` tag; absence yields the
zero hash with no error. -/
def GetCurrent (r : Repo) (method : String) : Except Err Hash :=
  match r.tagRef (currentTagName method) with
  | .error .tagNotFound => .ok zeroHash
  | .error e => .error (wrapErr "Error getting reference to current tag" e.msg)
  | .ok h => .ok h

/-- `GetInProgress`: read the `progress-<method>` tag; absence yields
the zero hash with no error. -/
def GetInProgress (r : Repo) (method : String) : Except Err Hash :=
  match r.tagRef (progressTagName method) with
  | .error .tagNotFound => .ok zeroHash
  | .error e => .error (wrapErr "Error getting in progress tag" e.msg)
  | .ok h => .ok h

/-- `UpdateCurrent`: delete any old `current-<method>` tag (absence
tolerated), then create it pointing at `newCurrent`. -/
def UpdateCurrent (r : Repo) (method : String) (newCurrent : Hash) : Repo × Option Err :=
  let tagName := currentTagName method
  match r.deleteTag tagName with
  | .error e =>
    if e = GitErr.tagNotFound then
      match r.createTag tagName newCurrent with
      | .error e2 => (r, some (wrapErr "Error creating new current tag" e2.msg))
      | .ok r2 => (r2, none)
    else (r, some (wrapErr "Error deleting old current tag" e.msg))
  | .ok r1 =>
    match r1.createTag tagName newCurrent with
    | .error e2 => (r1, some (wrapErr "Error creating new current tag" e2.msg))
    | .ok r2 => (r2, none)

/-- `CreateInProgress`: create the `progress-<method>` tag pointing at
`latest`; `ErrTagExists` is treated as success (with no re-pointing of
the existing tag). -/
def CreateInProgress (r : Repo) (method : String) (latest : Hash) : Repo × Option Err :=
  let tagName := progressTagName method
  match r.createTag tagName latest with
  | .error e =>
    if e = GitErr.tagExists then (r, none)
    else (r, some (wrapErr "Error creating progress tag" e.msg))
  | .ok r1 => (r1, none)

/-- `DeleteInProgress`: delete the `progress-<method>` tag;
`ErrTagNotFound` is treated as success. -/
def DeleteInProgress (r : Repo) (method : String) : Repo × Option Err :=
  let tagName := progressTagName method
  match r.deleteTag tagName with
  | .error e =>
    if e = GitErr.tagNotFound then (r, none)
    else (r, some (wrapErr "Error deleting progress tag" e.msg))
  | .ok r1 => (r1, none)

/-- Models `strings.HasSuffix(name, sfx)`, computed on the character
lists so that it evaluates in the kernel. -/
def strHasSuffix (sfx name : String) : Bool := sfx.data.isSuffixOf name.data

/-- `checkTag`: a `nil` suffix list accepts every name; otherwise the
name must end with one of the listed suffixes (`strings.HasSuffix`). -/
def checkTag (tags : Option (List String)) (name : String) : Bool :=
  match tags with
  | none => true
  | some ts => ts.any fun sfx => strHasSuffix sfx name

/-- A compiled `gobwas/glob` matcher. -/
abbrev GlobMatcher := String → Bool

/-- The matcher compiled from the default pattern `"**"`: with no
separators supplied to `glob.Compile`, it matches every string. -/
def matchEverything : GlobMatcher := fun _ => true

/-- The glob-selection prologue of `getFilteredChangeMap`: a `nil`
pattern compiles `"**"`, otherwise the supplied pattern's compiled
matcher is used.  (Pattern-compilation failure aborts the invocation in
the code; patterns are modelled by their compiled matchers, which is
total.) -/
def compileGlob (globPattern : Option GlobMatcher) : GlobMatcher :=
  match globPattern with
  | none => matchEverything
  | some g => g

/-- Modelled from the spec: the reserved path sentinel (`deleteFile`,
declared in repository code outside the analysed sources) meaning "this
artifact is a deletion, not a write". -/
def deleteFile : String := "delete"

/-- Models `filepath.Join(directory, targetPath, name)` for the
non-empty relative components used here. -/
def joinPath (directory targetPath name : String) : String :=
  directory ++ "/" ++ targetPath ++ "/" ++ name

/-- The per-entry body of `getFilteredChangeMap`'s loop: the destination
assigned to a diff entry, or `none` when the entry is dropped.  Note the
second branch mirrors the source exactly: the suffix check is on the
"from" name but the glob is matched against the "to" name. -/
def changeDest (directory targetPath : String) (tags : Option (List String))
    (g : GlobMatcher) (change : Change) : Option String :=
  if change.toName != "" && checkTag tags change.toName && g change.toName then
    some (joinPath directory targetPath change.toName)
  else if change.fromName != "" && checkTag tags change.fromName && g change.toName then
    some deleteFile
  else
    none

/-- `getFilteredChangeMap`: diff the two trees and keep the entries the
policy admits, each mapped to its destination.  The Go map keyed by
`*object.Change` pointers (all distinct) is modelled as the association
list in diff order; the spec states insertion order is irrelevant. -/
def getFilteredChangeMap (diff : Tree → Tree → List Change)
    (directory targetPath : String) (currentTree desiredTree : Tree)
    (tags : Option (List String)) (globPattern : Option GlobMatcher) :
    List (Change × String) :=
  let g := compileGlob globPattern
  (diff currentTree desiredTree).filterMap fun change =>
    (changeDest directory targetPath tags g change).map fun p => (change, p)

/-- `getSubTreeFromHash`: the zero hash resolves directly to the empty
tree `&object.Tree{}`; otherwise the commit is looked up and its subtree
at `subDir` resolved, either lookup failure being an error. -/
def getSubTreeFromHash (r : Repo) (hash : Hash) (subDir : String) : Except Err Tree :=
  if hash = zeroHash then .ok emptyTree
  else
    match r.commits hash with
    | none => .error (wrapErr "Error getting commit at hash from repo" subDir)
    | some t =>
      match r.subtree t subDir with
      | none => .error (wrapErr "Error getting sub tree at path" subDir)
      | some st => .ok st

/-- The Method Contract collaborator `fc.EngineMethod`, external to the
analysed sources: given a task's resolved path and change, the error the
task's method invocation reports (`none` on success). -/
abbrev EngineM := String → Change → Option Err

/-- The body of one dispatched goroutine up to its channel sends: the
wrapped error the task would report, if any. -/
def methodTaskErr (em : EngineM) (cp : Change × String) : Option Err :=
  match em cp.2 cp.1 with
  | some e => some (wrapErr "error running engine method for change" e)
  | none => none

/-- The signal sequence one dispatched goroutine sends on the result
channel, in order: a failing task sends its wrapped error and then,
unconditionally, `nil`; a succeeding task sends a single `nil`. -/
def taskSignals (em : EngineM) (cp : Change × String) : List (Option Err) :=
  match methodTaskErr em cp with
  | some e => [some e, none]
  | none => [none]

/-- Pop the front signal of queue `i` among the per-task signal queues;
`none` when that queue is exhausted (or out of range). -/
def popQueue (queues : List (List (Option Err))) (i : Nat) :
    Option (Option Err × List (List (Option Err))) :=
  match queues[i]? with
  | none => none
  | some [] => none
  | some (s :: rest) => some (s, queues.set i rest)

/-- Deliver signals from the per-task queues in the order given by a
schedule of task indices; `none` when the schedule is invalid (asks a
task for more signals than it sends).  Each result is one possible
sequence of values received from the unbuffered result channel. -/
def deliverSchedule (queues : List (List (Option Err))) :
    List Nat → Option (List (Option Err))
  | [] => some []
  | i :: sched =>
    match popQueue queues i with
    | none => none
    | some (s, queues2) => (deliverSchedule queues2 sched).map fun l => s :: l

/-- The receive loop of `runChangesConcurrent`: read up to `n` signals,
returning the first error immediately; yields the result together with
how many signals were actually received, or `none` when the loop would
block (stream exhausted before `n` nil signals). -/
def receiveLoop : Nat → List (Option Err) → Option (Option Err × Nat)
  | 0, _ => some (none, 0)
  | _ + 1, [] => none
  | n + 1, s :: stream =>
    match s with
    | some e => some (some e, 1)
    | none => (receiveLoop n stream).map fun p => (p.1, p.2 + 1)

/-- `runChangesConcurrent`, channel-level model: dispatch one goroutine
per change (each producing its `taskSignals`), deliver signals according
to `sched` (one valid interleaving of the unbuffered channel), and run
the receive loop for at most one signal per dispatched change.  Returns
the function's result and the number of signals received, or `none` for
an invalid schedule or a blocked receiver. -/
def runChangesConcurrentSched (em : EngineM) (changeMap : List (Change × String))
    (sched : List Nat) : Option (Option Err × Nat) :=
  match deliverSchedule (changeMap.map (taskSignals em)) sched with
  | none => none
  | some stream => receiveLoop changeMap.length stream

/-- The observable return value of `runChangesConcurrent` under the
delivery schedule that receives each task's first signal in list order:
the first failing task's wrapped error, else `nil` after one signal per
task.  (Whether an error is returned is schedule-independent; which
error is returned is not, and the claims above this function depend only
on the former.) -/
def runChangesConcurrent (em : EngineM) : List (Change × String) → Option Err
  | [] => none
  | cp :: rest =>
    match methodTaskErr em cp with
    | some e => some e
    | none => runChangesConcurrent em rest

/-- `Apply`: refuse a zero desired state, resolve both subtrees, compute
the filtered change map and dispatch it.  (`directory` is
`filepath.Base(mo.Target.Url)`, the clone directory of `r`.) -/
def Apply (em : EngineM) (r : Repo) (directory : String)
    (currentState desiredState : Hash) (targetPath : String)
    (tags : Option (List String)) (globPattern : Option GlobMatcher) : Option Err :=
  if desiredState = zeroHash then
    some "Cannot run Apply if desired state is empty"
  else
    match getSubTreeFromHash r currentState targetPath with
    | .error e => some (wrapErr "Error getting sub tree from hash from repo" e)
    | .ok currentTree =>
      match getSubTreeFromHash r desiredState targetPath with
      | .error e => some (wrapErr "Error getting sub tree from hash from repo" e)
      | .ok desiredTree =>
        match runChangesConcurrent em
            (getFilteredChangeMap r.diff directory targetPath currentTree desiredTree
              tags globPattern) with
        | some e => some (wrapErr "Error applying change" e)
        | none => none

/-- `CatchUpCurrent`: apply the full diff from the zero commit to
`current`. -/
def CatchUpCurrent (em : EngineM) (r : Repo) (directory : String) (current : Hash)
    (targetPath : String) (tags : Option (List String))
    (globPattern : Option GlobMatcher) : Option Err :=
  match Apply em r directory zeroHash current targetPath tags globPattern with
  | some e => some (wrapErr "Failed to apply changes" e)
  | none => none

/-- `CatchUpProgress`: when `progress != current`, re-apply from
`current` to `progress` (deleting the progress tag and aborting on
failure, advancing the current tag on success); then delete the
progress tag. -/
def CatchUpProgress (em : EngineM) (r : Repo) (directory method : String)
    (current progress : Hash) (targetPath : String) (tags : Option (List String))
    (globPattern : Option GlobMatcher) : Repo × Option Err :=
  let step : Repo × Option Err :=
    if progress ≠ current then
      match Apply em r directory current progress targetPath tags globPattern with
      | some e =>
        match DeleteInProgress r method with
        | (r1, some e1) => (r1, some (wrapErr "Failed to delete progress" e1))
        | (r1, none) => (r1, some (wrapErr "Failed to apply from current to in progress" e))
      | none =>
        match UpdateCurrent r method progress with
        | (r1, some e1) => (r1, some (wrapErr "Failed to update current to progress" e1))
        | (r1, none) => (r1, none)
    else (r, none)
  match step with
  | (r1, some e) => (r1, some e)
  | (r1, none) =>
    match DeleteInProgress r1 method with
    | (r2, some e2) => (r2, some (wrapErr "Failed to delete progress" e2))
    | (r2, none) => (r2, none)

/-- `CatchUpLatest`: write the progress tag at `latest`, apply from
`current` to `latest`, then on success advance the current tag and
delete the progress tag; on failure delete the progress tag and surface
the error. -/
def CatchUpLatest (em : EngineM) (r : Repo) (directory method : String)
    (current latest : Hash) (targetPath : String) (tags : Option (List String))
    (globPattern : Option GlobMatcher) : Repo × Option Err :=
  match CreateInProgress r method latest with
  | (r1, some e1) => (r1, some (wrapErr "Failed to create progress tag" e1))
  | (r1, none) =>
    match Apply em r1 directory current latest targetPath tags globPattern with
    | some e =>
      match DeleteInProgress r1 method with
      | (r2, some e2) => (r2, some (wrapErr "Error deleting progress tag" e2))
      | (r2, none) => (r2, some (wrapErr "Failed to apply changes" e))
    | none =>
      match UpdateCurrent r1 method latest with
      | (r2, some e2) => (r2, some (wrapErr "Error updating current tag" e2))
      | (r2, none) =>
        match DeleteInProgress r2 method with
        | (r3, some e3) => (r3, some (wrapErr "Error deleting progress tag" e3))
        | (r3, none) => (r3, none)

/-! Helper lemmas about the State Tag Store on a healthy clone. -/

theorem length_currentTagName (m : String) :
    (currentTagName m).length = 8 + m.length := by
  simp only [currentTagName, String.length_append]
  rfl

theorem length_progressTagName (m : String) :
    (progressTagName m).length = 9 + m.length := by
  simp only [progressTagName, String.length_append]
  rfl

theorem currentTagName_ne_progressTagName (m : String) :
    currentTagName m ≠ progressTagName m := by
  intro h
  have := congrArg String.length h
  rw [length_currentTagName, length_progressTagName] at this
  omega

theorem DeleteInProgress_snd (r : Repo) (m : String) :
    (DeleteInProgress r m).2 = none := by
  cases h : r.tags (progressTagName m) <;>
    simp [DeleteInProgress, Repo.deleteTag, h]

theorem DeleteInProgress_progress (r : Repo) (m : String) :
    (DeleteInProgress r m).1.tags (progressTagName m) = none := by
  cases h : r.tags (progressTagName m) <;>
    simp [DeleteInProgress, Repo.deleteTag, h]

theorem DeleteInProgress_other (r : Repo) (m : String) (n : String)
    (hn : n ≠ progressTagName m) :
    (DeleteInProgress r m).1.tags n = r.tags n := by
  cases h : r.tags (progressTagName m) <;>
    simp [DeleteInProgress, Repo.deleteTag, h, hn]

theorem DeleteInProgress_absent (r : Repo) (m : String)
    (h : r.tags (progressTagName m) = none) :
    DeleteInProgress r m = (r, none) := by
  simp [DeleteInProgress, Repo.deleteTag, h]

theorem UpdateCurrent_snd (r : Repo) (m : String) (c : Hash) :
    (UpdateCurrent r m c).2 = none := by
  cases h : r.tags (currentTagName m) <;>
    simp [UpdateCurrent, Repo.deleteTag, Repo.createTag, h]

theorem UpdateCurrent_current (r : Repo) (m : String) (c : Hash) :
    (UpdateCurrent r m c).1.tags (currentTagName m) = some c := by
  cases h : r.tags (currentTagName m) <;>
    simp [UpdateCurrent, Repo.deleteTag, Repo.createTag, h]

theorem UpdateCurrent_other (r : Repo) (m : String) (c : Hash) (n : String)
    (hn : n ≠ currentTagName m) :
    (UpdateCurrent r m c).1.tags n = r.tags n := by
  cases h : r.tags (currentTagName m) <;>
    simp [UpdateCurrent, Repo.deleteTag, Repo.createTag, h, hn]

theorem CreateInProgress_snd (r : Repo) (m : String) (c : Hash) :
    (CreateInProgress r m c).2 = none := by
  cases h : r.tags (progressTagName m) <;>
    simp [CreateInProgress, Repo.createTag, h]

theorem CreateInProgress_absent (r : Repo) (m : String) (c : Hash)
    (h : r.tags (progressTagName m) = none) :
    (CreateInProgress r m c).1.tags (progressTagName m) = some c := by
  simp [CreateInProgress, Repo.createTag, h]

theorem CreateInProgress_present (r : Repo) (m : String) (c x : Hash)
    (h : r.tags (progressTagName m) = some x) :
    (CreateInProgress r m c).1 = r := by
  simp [CreateInProgress, Repo.createTag, h]

theorem CreateInProgress_other (r : Repo) (m : String) (c : Hash) (n : String)
    (hn : n ≠ progressTagName m) :
    (CreateInProgress r m c).1.tags n = r.tags n := by
  cases h : r.tags (progressTagName m) <;>
    simp [CreateInProgress, Repo.createTag, h, hn]

/-! Concrete instances used to instantiate the claim theorems. -/

/-- A method-contract oracle whose tasks all succeed. -/
def emNone : EngineM := fun _ _ => none

/-- A method-contract oracle whose tasks all fail. -/
def emFail : EngineM := fun _ _ => some "boom"

/-- A one-entry tree diff (one created file `f`). -/
def diffOne : Tree → Tree → List Change := fun _ _ => [{ fromName := "", toName := "f" }]

/-- A concrete healthy clone with no tags at all. -/
def repoEmpty : Repo :=
  { tags := fun _ => none
    commits := fun _ => some 0
    subtree := fun _ _ => some 0
    diff := diffOne }

/-- A concrete healthy clone: `current-m` at commit 3, no progress tag. -/
def repoA : Repo :=
  { repoEmpty with tags := fun n => if n = currentTagName "m" then some 3 else none }

/-- `repoA` with a stale `progress-m` tag at commit 5. -/
def repoStale : Repo :=
  { repoA with
    tags := fun n => if n = progressTagName "m" then some 5 else repoA.tags n }

/-! Claim theorems. -/

/-- Claim C8: reading a tag (`GetCurrent`, `GetInProgress`) returns the
zero commit hash with no error when the tag is absent, and deleting the
progress tag (`DeleteInProgress`) returns success (and leaves the store
unchanged) when the tag does not exist; on a healthy clone
`DeleteInProgress` never fails. -/
theorem c8_tag_absence_not_error (r : Repo) (m : String) :
    (r.tags (currentTagName m) = none → GetCurrent r m = .ok zeroHash) ∧
    (r.tags (progressTagName m) = none → GetInProgress r m = .ok zeroHash) ∧
    (r.tags (progressTagName m) = none → DeleteInProgress r m = (r, none)) ∧
    (DeleteInProgress r m).2 = none := by
  refine ⟨fun hc => ?_, fun hp => ?_, fun hp => DeleteInProgress_absent r m hp,
    DeleteInProgress_snd r m⟩
  · simp [GetCurrent, Repo.tagRef, hc]
  · simp [GetInProgress, Repo.tagRef, hp]

/-- Witness for C8 at the concrete tagless clone `repoEmpty`. -/
theorem c8_tag_absence_not_error_witness :
    GetCurrent repoEmpty "m" = .ok zeroHash ∧
    GetInProgress repoEmpty "m" = .ok zeroHash ∧
    DeleteInProgress repoEmpty "m" = (repoEmpty, none) := by
  have h := c8_tag_absence_not_error repoEmpty "m"
  exact ⟨h.1 (by decide), h.2.1 (by decide), h.2.2.1 (by decide)⟩

/-- Claim C10: `checkTag` distinguishes a nil suffix list from an empty
one — nil accepts every filename, a non-nil empty list rejects every
filename — and with an empty (non-nil) suffix list the filtered
changeset is always empty. -/
theorem c10_nil_vs_empty_suffix_list :
    (∀ name, checkTag none name = true) ∧
    (∀ name, checkTag (some []) name = false) ∧
    (∀ (diff : Tree → Tree → List Change) (directory targetPath : String)
        (currentTree desiredTree : Tree) (globPattern : Option GlobMatcher),
      getFilteredChangeMap diff directory targetPath currentTree desiredTree
        (some []) globPattern = []) := by
  refine ⟨fun _ => rfl, fun _ => rfl, ?_⟩
  intro diff directory targetPath currentTree desiredTree globPattern
  simp [getFilteredChangeMap, changeDest, checkTag]

/-- Claim C5 counterexample: `CreateInProgress` on a clone whose
`progress-m` tag already points at commit 5 reports success but leaves
the tag at 5 — it does not delete and recreate it at the new commit 2,
so after this "tag write" the tag does not point at the written commit. -/
theorem c5_counterexample_stale_progress :
    (CreateInProgress repoStale "m" 2).2 = none ∧
    (CreateInProgress repoStale "m" 2).1.tags (progressTagName "m") = some 5 ∧
    (5 : Hash) ≠ 2 := by
  refine ⟨by decide, by decide, by decide⟩

/-- Claim C5 (amended): `UpdateCurrent` deletes then recreates, so after
it the `current-<method>` tag always points at the new commit;
`CreateInProgress` treats "tag already exists" as success but does not
re-point: the `progress-<method>` tag points at the new commit only when
it was previously absent, and keeps its old commit when present. -/
theorem c5_amended_tag_writes (r : Repo) (m : String) (c : Hash) :
    ((UpdateCurrent r m c).2 = none ∧
      (UpdateCurrent r m c).1.tags (currentTagName m) = some c) ∧
    (CreateInProgress r m c).2 = none ∧
    (r.tags (progressTagName m) = none →
      (CreateInProgress r m c).1.tags (progressTagName m) = some c) ∧
    (∀ x, r.tags (progressTagName m) = some x →
      (CreateInProgress r m c).1.tags (progressTagName m) = some x) := by
  refine ⟨⟨UpdateCurrent_snd r m c, UpdateCurrent_current r m c⟩,
    CreateInProgress_snd r m c, CreateInProgress_absent r m c, fun x hx => ?_⟩
  rw [CreateInProgress_present r m c x hx, hx]

/-- Witness for the amended C5: the absent-tag case on `repoA` and the
present-tag case on `repoStale`. -/
theorem c5_amended_tag_writes_witness :
    ((UpdateCurrent repoA "m" 7).1.tags (currentTagName "m") = some 7) ∧
    ((CreateInProgress repoA "m" 7).1.tags (progressTagName "m") = some 7) ∧
    ((CreateInProgress repoStale "m" 7).1.tags (progressTagName "m") = some 5) := by
  have ha := c5_amended_tag_writes repoA "m" 7
  have hs := c5_amended_tag_writes repoStale "m" 7
  exact ⟨ha.1.2, ha.2.2.1 (by decide), hs.2.2.2 5 (by decide)⟩

/-- Claim C4, evaluated at the failing input: for a pure deletion the
code matches the glob against the (empty) "to" name, not the "from"
name.  With the tree diff containing the single deletion of
`x.service`, no suffix list, and a compiled glob matching only the empty
string, the deletion is dispatched although its policy filename
`x.service` does not match the glob; and with a compiled glob matching
only `x.service` itself, the deletion is dropped although its policy
filename matches. -/
theorem c4_deletion_glob_checks_toName :
    getFilteredChangeMap (fun _ _ => [{ fromName := "x.service", toName := "" }])
        "dir" "tp" 0 1 none (some fun s => s == "")
      = [({ fromName := "x.service", toName := "" }, deleteFile)] ∧
    (fun s : String => s == "") "x.service" = false ∧
    getFilteredChangeMap (fun _ _ => [{ fromName := "x.service", toName := "" }])
        "dir" "tp" 0 1 none (some fun s => s == "x.service")
      = [] ∧
    (fun s : String => s == "x.service") "x.service" = true := by
  refine ⟨by decide, by decide, by decide, by decide⟩

/-- Claim C7 counterexample: a diff entry with "from" name `b.service`
and non-empty "to" name `a.txt`, under suffix list `[".service"]` and
the default glob, becomes a changeset member whose destination is the
delete sentinel — not `join(cloneDir, subpath, toName)` as the claim
requires for members with a non-empty "to" name. -/
theorem c7_counterexample_nonempty_to_delete :
    getFilteredChangeMap (fun _ _ => [{ fromName := "b.service", toName := "a.txt" }])
        "dir" "tp" 0 1 (some [".service"]) none
      = [({ fromName := "b.service", toName := "a.txt" }, deleteFile)] ∧
    deleteFile ≠ joinPath "dir" "tp" "a.txt" := by
  refine ⟨by decide, by decide⟩

/-- Claim C7 (amended): every changeset member was admitted either by
the to-branch — non-empty "to" name passing the suffix and glob checks —
and then its destination is `join(cloneDir, subpath, toName)`, or else
by the fallback branch — non-empty "from" name passing the suffix check,
with the glob matched against the "to" name — and then its destination
is the delete sentinel, even when the "to" name is non-empty; an entry
whose "to" and "from" names are both empty never becomes a member. -/
theorem c7_amended_destinations (diff : Tree → Tree → List Change)
    (directory targetPath : String) (currentTree desiredTree : Tree)
    (tags : Option (List String)) (globPattern : Option GlobMatcher)
    (c : Change) (dest : String)
    (hmem : (c, dest) ∈ getFilteredChangeMap diff directory targetPath
      currentTree desiredTree tags globPattern) :
    ¬(c.toName = "" ∧ c.fromName = "") ∧
    ((c.toName ≠ "" ∧ checkTag tags c.toName = true ∧
        compileGlob globPattern c.toName = true ∧
        dest = joinPath directory targetPath c.toName) ∨
      (¬(c.toName ≠ "" ∧ checkTag tags c.toName = true ∧
          compileGlob globPattern c.toName = true) ∧
        c.fromName ≠ "" ∧ checkTag tags c.fromName = true ∧
        compileGlob globPattern c.toName = true ∧
        dest = deleteFile)) := by
  simp only [getFilteredChangeMap, List.mem_filterMap] at hmem
  obtain ⟨x, _, hfx⟩ := hmem
  rw [Option.map_eq_some'] at hfx
  obtain ⟨p, hcd, hfp⟩ := hfx
  rw [Prod.mk.injEq] at hfp
  obtain ⟨hxc, hpd⟩ := hfp
  have hcx : c = x := hxc.symm
  subst hcx
  subst hpd
  rw [changeDest] at hcd
  by_cases hA : (c.toName != "" && checkTag tags c.toName
      && compileGlob globPattern c.toName) = true
  · rw [if_pos hA] at hcd
    simp only [Bool.and_eq_true, bne_iff_ne, ne_eq] at hA
    obtain ⟨⟨hto, htag⟩, hg⟩ := hA
    have hj := Option.some.inj hcd
    subst hj
    exact ⟨fun hh => hto hh.1, Or.inl ⟨hto, htag, hg, rfl⟩⟩
  · rw [if_neg hA] at hcd
    by_cases hB : (c.fromName != "" && checkTag tags c.fromName
        && compileGlob globPattern c.toName) = true
    · rw [if_pos hB] at hcd
      simp only [Bool.and_eq_true, bne_iff_ne, ne_eq] at hB
      obtain ⟨⟨hfrom, htag⟩, hg⟩ := hB
      have hj := Option.some.inj hcd
      subst hj
      have hA2 : ¬(c.toName ≠ "" ∧ checkTag tags c.toName = true ∧
          compileGlob globPattern c.toName = true) := by
        intro hh
        exact hA (by simp [Bool.and_eq_true, bne_iff_ne, hh.1, hh.2.1, hh.2.2])
      exact ⟨fun hh => hfrom hh.2, Or.inr ⟨hA2, hfrom, htag, hg, rfl⟩⟩
    · rw [if_neg hB] at hcd
      exact absurd hcd (by simp)

/-- Witness for the amended C7 at a concrete created-file member. -/
theorem c7_amended_destinations_witness :
    ¬(("f" : String) = "" ∧ ("" : String) = "") ∧
    ((("f" : String) ≠ "" ∧ checkTag none "f" = true ∧
        compileGlob none "f" = true ∧
        joinPath "dir" "tp" "f" = joinPath "dir" "tp" "f") ∨
      (¬(("f" : String) ≠ "" ∧ checkTag none "f" = true ∧
          compileGlob none "f" = true) ∧
        ("" : String) ≠ "" ∧ checkTag none "" = true ∧
        compileGlob none "f" = true ∧
        joinPath "dir" "tp" "f" = deleteFile)) := by
  have h := c7_amended_destinations diffOne "dir" "tp" 0 1 none none
    { fromName := "", toName := "f" } (joinPath "dir" "tp" "f") (by decide)
  exact h

/-- Claim C9: `Apply` refuses a zero desired-state commit up front —
for every method-contract oracle and every clone (so no diff is
consulted and no change dispatched, the result being independent of
both) — and consequently `CatchUpCurrent`, which applies from the zero
commit to `current`, errors whenever `current` is the zero hash (the
current tag being absent). -/
theorem c9_zero_desired_state_errors (em : EngineM) (r : Repo) (directory : String)
    (current : Hash) (targetPath : String) (tags : Option (List String))
    (globPattern : Option GlobMatcher) :
    Apply em r directory current zeroHash targetPath tags globPattern
      = some "Cannot run Apply if desired state is empty" ∧
    CatchUpCurrent em r directory zeroHash targetPath tags globPattern
      = some (wrapErr "Failed to apply changes"
          "Cannot run Apply if desired state is empty") := by
  constructor
  · simp [Apply, zeroHash]
  · simp [CatchUpCurrent, Apply, zeroHash, wrapErr]

/-- Claim C6: the initial catch-up entry point applies the full diff
from the zero commit to `current`; the zero commit resolves directly to
the empty tree, so the changeset `CatchUpCurrent` dispatches is exactly
the filtered diff from the empty tree to the subtree of `current` at the
target subpath. -/
theorem c6_initial_catchup_diffs_empty_tree (em : EngineM) (r : Repo)
    (directory : String) (current : Hash) (targetPath : String)
    (tags : Option (List String)) (globPattern : Option GlobMatcher) (t st : Tree)
    (h0 : current ≠ zeroHash) (h1 : r.commits current = some t)
    (h2 : r.subtree t targetPath = some st) :
    getSubTreeFromHash r zeroHash targetPath = .ok emptyTree ∧
    getSubTreeFromHash r current targetPath = .ok st ∧
    CatchUpCurrent em r directory current targetPath tags globPattern =
      (runChangesConcurrent em
        (getFilteredChangeMap r.diff directory targetPath emptyTree st tags
          globPattern)).map
        (fun e => wrapErr "Failed to apply changes" (wrapErr "Error applying change" e)) := by
  have hz : getSubTreeFromHash r zeroHash targetPath = .ok emptyTree := by
    simp [getSubTreeFromHash]
  have hcu : getSubTreeFromHash r current targetPath = .ok st := by
    simp [getSubTreeFromHash, h0, h1, h2]
  have happly : Apply em r directory zeroHash current targetPath tags globPattern =
      (runChangesConcurrent em
        (getFilteredChangeMap r.diff directory targetPath emptyTree st tags
          globPattern)).map (wrapErr "Error applying change") := by
    rw [Apply, if_neg h0, hz, hcu]
    dsimp only
    cases runChangesConcurrent em
        (getFilteredChangeMap r.diff directory targetPath emptyTree st tags
          globPattern) <;> simp
  refine ⟨hz, hcu, ?_⟩
  rw [CatchUpCurrent, happly]
  cases runChangesConcurrent em
      (getFilteredChangeMap r.diff directory targetPath emptyTree st tags
        globPattern) <;> simp

/-- Witness for C6 on the concrete clone `repoA` at commit 3. -/
theorem c6_initial_catchup_witness :
    getSubTreeFromHash repoA zeroHash "tp" = .ok emptyTree ∧
    getSubTreeFromHash repoA 3 "tp" = .ok 0 ∧
    CatchUpCurrent emNone repoA "d" 3 "tp" none none =
      (runChangesConcurrent emNone
        (getFilteredChangeMap repoA.diff "d" "tp" emptyTree 0 none none)).map
        (fun e => wrapErr "Failed to apply changes" (wrapErr "Error applying change" e)) :=
  c6_initial_catchup_diffs_empty_tree emNone repoA "d" 3 "tp" none none 0 0
    (by decide) (by decide) (by decide)

/-- Scenario lemma: `CatchUpProgress` when the replay applies cleanly —
advance the current tag, then the final unconditional progress delete. -/
theorem CatchUpProgress_applyOk (em : EngineM) (r : Repo) (directory m : String)
    (current progress : Hash) (targetPath : String) (tags : Option (List String))
    (globPattern : Option GlobMatcher) (hne : progress ≠ current)
    (happ : Apply em r directory current progress targetPath tags globPattern = none) :
    CatchUpProgress em r directory m current progress targetPath tags globPattern
      = ((DeleteInProgress (UpdateCurrent r m progress).1 m).1, none) := by
  obtain ⟨u, eu⟩ : ∃ u, UpdateCurrent r m progress = (u, none) :=
    ⟨(UpdateCurrent r m progress).1, Prod.ext rfl (UpdateCurrent_snd r m progress)⟩
  obtain ⟨d, ed⟩ : ∃ d, DeleteInProgress u m = (d, none) :=
    ⟨(DeleteInProgress u m).1, Prod.ext rfl (DeleteInProgress_snd u m)⟩
  unfold CatchUpProgress
  rw [if_pos hne, happ]
  dsimp only
  rw [eu]
  dsimp only
  rw [ed]

/-- Scenario lemma: `CatchUpProgress` when the replay fails — delete the
progress tag and return the wrapped apply error, current tag untouched. -/
theorem CatchUpProgress_applyErr (em : EngineM) (r : Repo) (directory m : String)
    (current progress : Hash) (targetPath : String) (tags : Option (List String))
    (globPattern : Option GlobMatcher) (e : Err) (hne : progress ≠ current)
    (happ : Apply em r directory current progress targetPath tags globPattern = some e) :
    CatchUpProgress em r directory m current progress targetPath tags globPattern
      = ((DeleteInProgress r m).1,
          some (wrapErr "Failed to apply from current to in progress" e)) := by
  obtain ⟨d, ed⟩ : ∃ d, DeleteInProgress r m = (d, none) :=
    ⟨(DeleteInProgress r m).1, Prod.ext rfl (DeleteInProgress_snd r m)⟩
  unfold CatchUpProgress
  rw [if_pos hne, happ]
  dsimp only
  rw [ed]

/-- Scenario lemma: `CatchUpProgress` when no interruption is recorded —
just the unconditional progress delete. -/
theorem CatchUpProgress_same (em : EngineM) (r : Repo) (directory m : String)
    (current progress : Hash) (targetPath : String) (tags : Option (List String))
    (globPattern : Option GlobMatcher) (heq : progress = current) :
    CatchUpProgress em r directory m current progress targetPath tags globPattern
      = ((DeleteInProgress r m).1, none) := by
  obtain ⟨d, ed⟩ : ∃ d, DeleteInProgress r m = (d, none) :=
    ⟨(DeleteInProgress r m).1, Prod.ext rfl (DeleteInProgress_snd r m)⟩
  unfold CatchUpProgress
  rw [if_neg (by simp [heq])]
  dsimp only
  rw [ed]

/-- Claim C1: when `progress != current`, `CatchUpProgress` re-applies
from `current` to `progress` (not to any later commit); on success the
current tag is advanced to `progress`; on failure the progress tag is
deleted, the wrapped apply error is returned and the current tag is left
unchanged; and whenever `CatchUpProgress` returns successfully —
including when `progress == current` — the progress tag has been
deleted. -/
theorem c1_catchUpProgress_replay (em : EngineM) (r : Repo) (directory m : String)
    (current progress : Hash) (targetPath : String) (tags : Option (List String))
    (globPattern : Option GlobMatcher) :
    (progress ≠ current →
      Apply em r directory current progress targetPath tags globPattern = none →
      (CatchUpProgress em r directory m current progress targetPath tags
          globPattern).2 = none ∧
      (CatchUpProgress em r directory m current progress targetPath tags
          globPattern).1.tags (currentTagName m) = some progress ∧
      (CatchUpProgress em r directory m current progress targetPath tags
          globPattern).1.tags (progressTagName m) = none) ∧
    (∀ e, progress ≠ current →
      Apply em r directory current progress targetPath tags globPattern = some e →
      (CatchUpProgress em r directory m current progress targetPath tags
          globPattern).2
        = some (wrapErr "Failed to apply from current to in progress" e) ∧
      (CatchUpProgress em r directory m current progress targetPath tags
          globPattern).1.tags (progressTagName m) = none ∧
      (CatchUpProgress em r directory m current progress targetPath tags
          globPattern).1.tags (currentTagName m) = r.tags (currentTagName m)) ∧
    (progress = current →
      (CatchUpProgress em r directory m current progress targetPath tags
          globPattern).2 = none ∧
      (CatchUpProgress em r directory m current progress targetPath tags
          globPattern).1.tags (progressTagName m) = none ∧
      (CatchUpProgress em r directory m current progress targetPath tags
          globPattern).1.tags (currentTagName m) = r.tags (currentTagName m)) ∧
    ((CatchUpProgress em r directory m current progress targetPath tags
        globPattern).2 = none →
      (CatchUpProgress em r directory m current progress targetPath tags
          globPattern).1.tags (progressTagName m) = none) := by
  refine ⟨fun hne happ => ?_, fun e hne happ => ?_, fun heq => ?_, fun hok => ?_⟩
  · rw [CatchUpProgress_applyOk em r directory m current progress targetPath tags
      globPattern hne happ]
    refine ⟨rfl, ?_, DeleteInProgress_progress _ m⟩
    rw [DeleteInProgress_other _ m _ (currentTagName_ne_progressTagName m)]
    exact UpdateCurrent_current r m progress
  · rw [CatchUpProgress_applyErr em r directory m current progress targetPath tags
      globPattern e hne happ]
    refine ⟨rfl, DeleteInProgress_progress _ m, ?_⟩
    exact DeleteInProgress_other _ m _ (currentTagName_ne_progressTagName m)
  · rw [CatchUpProgress_same em r directory m current progress targetPath tags
      globPattern heq]
    exact ⟨rfl, DeleteInProgress_progress _ m,
      DeleteInProgress_other _ m _ (currentTagName_ne_progressTagName m)⟩
  · by_cases heq : progress = current
    · rw [CatchUpProgress_same em r directory m current progress targetPath tags
        globPattern heq]
      exact DeleteInProgress_progress _ m
    · cases happ : Apply em r directory current progress targetPath tags globPattern with
      | none =>
        rw [CatchUpProgress_applyOk em r directory m current progress targetPath tags
          globPattern heq happ]
        exact DeleteInProgress_progress _ m
      | some e =>
        rw [CatchUpProgress_applyErr em r directory m current progress targetPath tags
          globPattern e heq happ] at hok
        exact absurd hok (by simp)

/-- Witness for C1: the clean-replay case and the failing-replay case on
the concrete clone `repoStale` (progress at 5, current tag at 3). -/
theorem c1_catchUpProgress_replay_witness :
    ((CatchUpProgress emNone repoStale "d" "m" 3 5 "tp" none none).2 = none ∧
      (CatchUpProgress emNone repoStale "d" "m" 3 5 "tp" none none).1.tags
        (currentTagName "m") = some 5 ∧
      (CatchUpProgress emNone repoStale "d" "m" 3 5 "tp" none none).1.tags
        (progressTagName "m") = none) ∧
    ((CatchUpProgress emFail repoStale "d" "m" 3 5 "tp" none none).2
        = some (wrapErr "Failed to apply from current to in progress"
            (wrapErr "Error applying change"
              (wrapErr "error running engine method for change" "boom"))) ∧
      (CatchUpProgress emFail repoStale "d" "m" 3 5 "tp" none none).1.tags
        (progressTagName "m") = none ∧
      (CatchUpProgress emFail repoStale "d" "m" 3 5 "tp" none none).1.tags
        (currentTagName "m") = repoStale.tags (currentTagName "m")) := by
  have h1 := c1_catchUpProgress_replay emNone repoStale "d" "m" 3 5 "tp" none none
  have h2 := c1_catchUpProgress_replay emFail repoStale "d" "m" 3 5 "tp" none none
  exact ⟨h1.1 (by decide) (by decide),
    h2.2.1 (wrapErr "Error applying change"
      (wrapErr "error running engine method for change" "boom")) (by decide) (by decide)⟩

/-- Scenario lemma: `CatchUpLatest` when the apply from `current` to
`latest` (run against the state left by the progress-tag write)
succeeds — advance the current tag, then delete the progress tag. -/
theorem CatchUpLatest_applyOk (em : EngineM) (r : Repo) (directory m : String)
    (current latest : Hash) (targetPath : String) (tags : Option (List String))
    (globPattern : Option GlobMatcher)
    (happ : Apply em (CreateInProgress r m latest).1 directory current latest
      targetPath tags globPattern = none) :
    CatchUpLatest em r directory m current latest targetPath tags globPattern
      = ((DeleteInProgress
            (UpdateCurrent (CreateInProgress r m latest).1 m latest).1 m).1,
          none) := by
  obtain ⟨c1, ec⟩ : ∃ c1, CreateInProgress r m latest = (c1, none) :=
    ⟨(CreateInProgress r m latest).1, Prod.ext rfl (CreateInProgress_snd r m latest)⟩
  obtain ⟨u, eu⟩ : ∃ u, UpdateCurrent c1 m latest = (u, none) :=
    ⟨(UpdateCurrent c1 m latest).1, Prod.ext rfl (UpdateCurrent_snd c1 m latest)⟩
  obtain ⟨d, ed⟩ : ∃ d, DeleteInProgress u m = (d, none) :=
    ⟨(DeleteInProgress u m).1, Prod.ext rfl (DeleteInProgress_snd u m)⟩
  rw [ec] at happ
  dsimp only at happ
  unfold CatchUpLatest
  rw [ec]
  dsimp only
  rw [happ, eu]
  dsimp only
  rw [ed]

/-- Scenario lemma: `CatchUpLatest` when the apply fails — delete the
progress tag and surface the wrapped apply error, current tag
untouched. -/
theorem CatchUpLatest_applyErr (em : EngineM) (r : Repo) (directory m : String)
    (current latest : Hash) (targetPath : String) (tags : Option (List String))
    (globPattern : Option GlobMatcher) (e : Err)
    (happ : Apply em (CreateInProgress r m latest).1 directory current latest
      targetPath tags globPattern = some e) :
    CatchUpLatest em r directory m current latest targetPath tags globPattern
      = ((DeleteInProgress (CreateInProgress r m latest).1 m).1,
          some (wrapErr "Failed to apply changes" e)) := by
  obtain ⟨c1, ec⟩ : ∃ c1, CreateInProgress r m latest = (c1, none) :=
    ⟨(CreateInProgress r m latest).1, Prod.ext rfl (CreateInProgress_snd r m latest)⟩
  obtain ⟨d, ed⟩ : ∃ d, DeleteInProgress c1 m = (d, none) :=
    ⟨(DeleteInProgress c1 m).1, Prod.ext rfl (DeleteInProgress_snd c1 m)⟩
  rw [ec] at happ
  dsimp only at happ
  unfold CatchUpLatest
  rw [ec]
  dsimp only
  rw [happ]
  dsimp only
  rw [ed]

/-- Claim C2 counterexample: on a clone with a stale `progress-m` tag at
commit 5, the progress-tag write `CatchUpLatest` performs first
(`CreateInProgress`, whose result state it passes to the apply) leaves
the tag at 5, not at `latest = 7`, yet the run continues and completes —
so `CatchUpLatest` does not "write the progress tag to latest before
computing or dispatching any change" as claimed. -/
theorem c2_counterexample_stale_progress :
    (CreateInProgress repoStale "m" 7).1.tags (progressTagName "m") = some 5 ∧
    (5 : Hash) ≠ 7 ∧
    (CatchUpLatest emNone repoStale "d" "m" 3 7 "tp" none none).2 = none := by
  refine ⟨by decide, by decide, by decide⟩

/-- Claim C2 (amended): `CatchUpLatest` invokes the progress-tag write
first, and when no progress tag existed beforehand the tag points at
`latest` before any change is computed or dispatched (an existing stale
tag is left unchanged by the write).  In all cases: if the apply from
`current` to `latest` succeeds, the current tag is advanced to `latest`
and the progress tag is deleted; if it fails, the progress tag is
deleted, the wrapped error is surfaced, and the current tag keeps its
old value. -/
theorem c2_amended_catchUpLatest (em : EngineM) (r : Repo) (directory m : String)
    (current latest : Hash) (targetPath : String) (tags : Option (List String))
    (globPattern : Option GlobMatcher) :
    (r.tags (progressTagName m) = none →
      (CreateInProgress r m latest).1.tags (progressTagName m) = some latest) ∧
    (Apply em (CreateInProgress r m latest).1 directory current latest targetPath
        tags globPattern = none →
      (CatchUpLatest em r directory m current latest targetPath tags
          globPattern).2 = none ∧
      (CatchUpLatest em r directory m current latest targetPath tags
          globPattern).1.tags (currentTagName m) = some latest ∧
      (CatchUpLatest em r directory m current latest targetPath tags
          globPattern).1.tags (progressTagName m) = none) ∧
    (∀ e, Apply em (CreateInProgress r m latest).1 directory current latest
        targetPath tags globPattern = some e →
      (CatchUpLatest em r directory m current latest targetPath tags
          globPattern).2 = some (wrapErr "Failed to apply changes" e) ∧
      (CatchUpLatest em r directory m current latest targetPath tags
          globPattern).1.tags (progressTagName m) = none ∧
      (CatchUpLatest em r directory m current latest targetPath tags
          globPattern).1.tags (currentTagName m) = r.tags (currentTagName m)) := by
  refine ⟨CreateInProgress_absent r m latest, fun happ => ?_, fun e happ => ?_⟩
  · rw [CatchUpLatest_applyOk em r directory m current latest targetPath tags
      globPattern happ]
    refine ⟨rfl, ?_, DeleteInProgress_progress _ m⟩
    rw [DeleteInProgress_other _ m _ (currentTagName_ne_progressTagName m)]
    exact UpdateCurrent_current _ m latest
  · rw [CatchUpLatest_applyErr em r directory m current latest targetPath tags
      globPattern e happ]
    refine ⟨rfl, DeleteInProgress_progress _ m, ?_⟩
    rw [DeleteInProgress_other _ m _ (currentTagName_ne_progressTagName m)]
    exact CreateInProgress_other r m latest _ (currentTagName_ne_progressTagName m)

/-- Witness for the amended C2: the clean-apply case and the failing
case on the concrete clone `repoA` (no progress tag, current tag at 3),
with `latest = 7`. -/
theorem c2_amended_catchUpLatest_witness :
    ((CreateInProgress repoA "m" 7).1.tags (progressTagName "m") = some 7) ∧
    ((CatchUpLatest emNone repoA "d" "m" 3 7 "tp" none none).2 = none ∧
      (CatchUpLatest emNone repoA "d" "m" 3 7 "tp" none none).1.tags
        (currentTagName "m") = some 7 ∧
      (CatchUpLatest emNone repoA "d" "m" 3 7 "tp" none none).1.tags
        (progressTagName "m") = none) ∧
    ((CatchUpLatest emFail repoA "d" "m" 3 7 "tp" none none).2
        = some (wrapErr "Failed to apply changes"
            (wrapErr "Error applying change"
              (wrapErr "error running engine method for change" "boom"))) ∧
      (CatchUpLatest emFail repoA "d" "m" 3 7 "tp" none none).1.tags
        (currentTagName "m") = repoA.tags (currentTagName "m")) := by
  have h1 := c2_amended_catchUpLatest emNone repoA "d" "m" 3 7 "tp" none none
  have h2 := c2_amended_catchUpLatest emFail repoA "d" "m" 3 7 "tp" none none
  refine ⟨h1.1 (by decide), h1.2.1 (by decide), ?_⟩
  have h3 := h2.2.2 (wrapErr "Error applying change"
    (wrapErr "error running engine method for change" "boom")) (by decide)
  exact ⟨h3.1, h3.2.2⟩

/-- Claim C3, evaluated at the failing input (the spec itself flags this
as an apparent bug to fix, §9): a changeset of two changes where the
method fails.  A failed task sends two completion signals (its error,
then an unconditional nil), and under the valid delivery schedule that
delivers the first task's error first, the coordinator returns that
error after receiving a single signal although two tasks were dispatched
— it does not block until it has received exactly one completion signal
per dispatched task, and the remaining senders stay blocked. -/
theorem c3_dispatcher_returns_before_draining :
    runChangesConcurrentSched emFail
        [({ fromName := "", toName := "a" }, "p1"),
          ({ fromName := "", toName := "b" }, "p2")] [0]
      = some (some (wrapErr "error running engine method for change" "boom"), 1) ∧
    ([({ fromName := "", toName := "a" }, "p1"),
      ({ fromName := "", toName := "b" }, "p2")] : List (Change × String)).length
        = 2 ∧
    (1 : Nat) ≠ 2 ∧
    (taskSignals emFail ({ fromName := "", toName := "a" }, "p1")).length = 2 := by
  refine ⟨by decide, by decide, by decide, by decide⟩

end Fetchit
